import Mathlib

/-!
Shallow embedding of the recipe-sharing application (models.py, routes/main.py,
routes/recipes.py) and proofs about its scaling engine, amount formatter,
shopping-list aggregator, rating upsert and search composer.

Python floats are modelled as exact rationals, nullable columns as Option, and
the relational store as explicit lists of rows.  Python truthiness (None and 0
are falsy, as is the empty string) is modelled explicitly where the source
relies on it.
-/

namespace RecipeApp

/- Rational arithmetic from Batteries is marked irreducible; restore kernel
reducibility so that concrete evaluations go through the decide tactic. -/
attribute [local semireducible] Rat.add Rat.mul Rat.inv Rat.sub

/-- Python truthiness of an optional numeric value: None and 0 are falsy.
Models the guards such as the one in Ingredient.formatted_amount and the
conditional in Recipe.get_scaled_ingredients of models.py. -/
def ratTruthy : Option ℚ → Bool
  | none => false
  | some a => a != 0

/-- Python truthiness of an optional integer: None and 0 are falsy. -/
def intTruthy : Option ℤ → Bool
  | none => false
  | some n => n != 0

/-- Ingredient row (models.py).  The primary key, recipe_id foreign key and
the order column are represented by the position of the row in the owning
recipe's ingredient list; name, amount, unit and notes are the observable
columns the claims are about.  amount, unit and notes are nullable. -/
structure Ingredient where
  name : String
  amount : Option ℚ
  unit : Option String
  notes : Option String
deriving Repr, DecidableEq

/-- The dict with keys name, amount, unit, notes built by
Recipe.get_scaled_ingredients in models.py. -/
structure Entry where
  name : String
  amount : Option ℚ
  unit : Option String
  notes : Option String
deriving Repr, DecidableEq

/-- Recipe row (models.py), with the columns the claims depend on and its
owned, ordered ingredient list.  created_at is modelled as an integer
timestamp. -/
structure Recipe where
  id : ℤ
  title : String
  description : Option String
  instructions : String
  prep_time : Option ℤ
  cook_time : Option ℤ
  servings : Option ℤ
  difficulty : String
  category_id : ℤ
  created_at : ℤ
  ingredients : List Ingredient
deriving Repr, DecidableEq

/-- Projection of an ingredient row to its four observable columns, used where
the source returns the rows themselves and the claims observe name, amount,
unit and notes. -/
def Ingredient.toEntry (i : Ingredient) : Entry :=
  { name := i.name, amount := i.amount, unit := i.unit, notes := i.notes }

/-- Recipe.get_scaled_ingredients of models.py.  The source first guards on
the falsiness of self.servings (None or 0) and returns self.ingredients
unchanged; otherwise it computes scale_factor as new_servings / self.servings
and builds, in order, one dict per ingredient whose amount is
ingredient.amount * scale_factor when ingredient.amount is truthy and None
otherwise.  The only caller that can pass new_servings = None does so exactly
when self.servings is None, where the guard fires before new_servings is used,
so new_servings is taken as an integer here. -/
def Recipe.get_scaled_ingredients (r : Recipe) (new_servings : ℤ) : List Entry :=
  if intTruthy r.servings = false then
    r.ingredients.map Ingredient.toEntry
  else
    let s : ℤ := r.servings.getD 0
    let scale_factor : ℚ := (new_servings : ℚ) / (s : ℚ)
    r.ingredients.map fun ing =>
      { name := ing.name
        amount := if ratTruthy ing.amount then some (ing.amount.getD 0 * scale_factor) else none
        unit := ing.unit
        notes := ing.notes }

/-- Number of times p divides n, computed with explicit fuel so that it
reduces in the kernel; call with fuel at least n. -/
def countFactors : ℕ → ℕ → ℕ → ℕ
  | 0, _, _ => 0
  | fuel + 1, p, n =>
    if 1 < p ∧ 0 < n ∧ n % p = 0 then countFactors fuel p (n / p) + 1 else 0

/-- Left-pad a digit string with zeros to length k. -/
def padZeros (s : String) (k : ℕ) : String :=
  String.mk (List.replicate (k - s.length) '0') ++ s

/-- Rendering of a rational holding an exact finite decimal value as its
literal decimal string, modelling the Python str() applied to such a float in
Ingredient.formatted_amount (for example 23/10 renders as "2.3").  For a
rational that is not a finite decimal, which no caller produces, a fraction
spelling is returned. -/
def decimalRepr (q : ℚ) : String :=
  let sign := if q < 0 then "-" else ""
  let n := q.num.natAbs
  let d := q.den
  let k := max (countFactors d 2 d) (countFactors d 5 d)
  if d ∣ 10 ^ k then
    let m := n * 10 ^ k / d
    sign ++ toString (m / 10 ^ k) ++ "." ++ padZeros (toString (m % 10 ^ k)) k
  else
    sign ++ toString n ++ "/" ++ toString d

/-- The tail of Ingredient.formatted_amount in models.py reached when no
vulgar-fraction case matched: an amount equal to its int() truncation renders
as that integer without a decimal point, anything else as its literal decimal
string. -/
def fmtRest (a : ℚ) : String :=
  if a.den = 1 then toString a.num else decimalRepr a

/-- Ingredient.formatted_amount of models.py.  A falsy amount (None or 0)
renders as the empty string; then, only when the amount is below 1, the five
exact vulgar-fraction values are matched; then integral amounts render without
a decimal point and every other amount as its literal decimal string. -/
def formatted_amount (amount : Option ℚ) : String :=
  if ratTruthy amount = false then ""
  else
    let a := amount.getD 0
    if a < 1 then
      if a = 1 / 2 then "1/2"
      else if a = 1 / 4 then "1/4"
      else if a = 3 / 4 then "3/4"
      else if a = 33 / 100 then "1/3"
      else if a = 67 / 100 then "2/3"
      else fmtRest a
    else fmtRest a

example : formatted_amount (some (1 / 2)) = "1/2" := by decide
example : formatted_amount (some 2) = "2" := by decide
example : formatted_amount (some (23 / 10)) = "2.3" := by decide
example : formatted_amount (some 0) = "" := by decide
example : formatted_amount none = "" := by decide

/-! ## Shopping-list aggregator (shopping_list of routes/main.py) -/

/-- Python str.lower(), character by character. -/
def strLower (s : String) : String := (s.data.map Char.toLower).asString

/-- A value of the combined_ingredients dict built by shopping_list: name is
the first-seen original-case name, amount the running sum, unit the
None-normalised unit string, notes the first-seen notes. -/
structure OutEntry where
  name : String
  amount : ℚ
  unit : String
  notes : Option String
deriving Repr, DecidableEq

/-- The dict key built by shopping_list: the f-string joining the lowercased
name and the None-normalised unit with an underscore. -/
def entryKey (e : Entry) : String :=
  strLower e.name ++ "_" ++ e.unit.getD ""

/-- Lookup in an insertion-ordered association list, modelling dict
membership and indexing. -/
def alookup (k : String) : List (String × OutEntry) → Option OutEntry
  | [] => none
  | kv :: rest => if kv.1 = k then some kv.2 else alookup k rest

/-- The local variable amount of the inner loop: the entry's amount with a
falsy (absent or zero) amount replaced by 0. -/
def entryAmount (e : Entry) : ℚ :=
  if ratTruthy e.amount then e.amount.getD 0 else 0

/-- One iteration of the inner loop of shopping_list: normalise unit and
amount by Python truthiness (None unit becomes the empty string, a falsy
amount becomes 0), then either add the amount onto the existing dict entry
for the key, or insert a fresh entry at the end. Only the amount of an
existing entry is updated; its name, unit and notes keep their first-seen
values. -/
def addEntry (m : List (String × OutEntry)) (e : Entry) : List (String × OutEntry) :=
  let key := entryKey e
  let amount : ℚ := entryAmount e
  if (alookup key m).isSome then
    m.map fun kv => if kv.1 = key then (kv.1, { kv.2 with amount := kv.2.amount + amount }) else kv
  else
    m ++ [(key, { name := e.name, amount := amount, unit := e.unit.getD "", notes := e.notes })]

/-- The full inner loop of shopping_list over the scaled entries of all
selected recipes. -/
def combineEntries (es : List Entry) : List (String × OutEntry) :=
  es.foldl addEntry []

/-- The per-recipe step of the shopping_list loop body.  When the recipe's
servings column is falsy (NULL or 0) the guard of get_scaled_ingredients
returns the ORM Ingredient rows themselves, not dicts, and the first
subscript ingredient['name'] in the merge loop raises TypeError — modelled as
the error case — unless the recipe has no ingredients, in which case the loop
body never runs and nothing is contributed.  Otherwise the recipe is scaled
to servings[i] when that index exists and to its own (truthy) servings
column otherwise, and the resulting dicts are merged normally. -/
def recipeEntries (r : Recipe) (requested : Option ℤ) : Except String (List Entry) :=
  if intTruthy r.servings = false then
    match r.ingredients with
    | [] => .ok []
    | _ :: _ => .error "TypeError"
  else
    .ok (r.get_scaled_ingredients (requested.getD (r.servings.getD 0)))

/-- The outer loop of shopping_list over enumerate(recipe_ids): an id with no
matching recipe row contributes nothing; each found recipe contributes its
entries per recipeEntries, and the first TypeError aborts the whole request
(the dict built so far is discarded, so collecting all entries before the
merge is observationally the same as merging as the source goes). -/
def gatherEntries (db : List Recipe) : List ℤ → List ℤ → ℕ → Except String (List Entry)
  | [], _, _ => .ok []
  | rid :: rest, servs, i =>
    match db.find? (fun r => r.id == rid) with
    | none => gatherEntries db rest servs (i + 1)
    | some r =>
      match recipeEntries r (servs.get? i) with
      | .error e => .error e
      | .ok es =>
        match gatherEntries db rest servs (i + 1) with
        | .error e => .error e
        | .ok rest' => .ok (es ++ rest')

/-- shopping_list of routes/main.py: gather the scaled entries of the
requested recipes, then merge them into the combined_ingredients dict; a
TypeError anywhere aborts the request with no rendered output. The early
return for an empty id list produces the empty dict, which coincides with
the general path. -/
def shoppingList (db : List Recipe) (recipe_ids servings : List ℤ) :
    Except String (List (String × OutEntry)) :=
  match gatherEntries db recipe_ids servings 0 with
  | .error e => .error e
  | .ok es => .ok (combineEntries es)

/-- Total merged amount contributed to one dict key by a list of entries. -/
def keyAmountSum (k : String) (es : List Entry) : ℚ :=
  ((es.filter fun e => entryKey e = k).map entryAmount).sum

/-- Specification view of the combined dict at one key: the first entry with
that key fixes name, unit and notes, and the amount is the total over all
entries with that key. -/
def combinedAt (k : String) : List Entry → Option OutEntry
  | [] => none
  | e :: rest =>
    if entryKey e = k then
      some { name := e.name, amount := entryAmount e + keyAmountSum k rest,
             unit := e.unit.getD "", notes := e.notes }
    else combinedAt k rest

/-! ## Search composer (search of routes/main.py) -/

/-- Substring containment, modelling the contains filter of the query
layer. -/
def strContains (hay pat : String) : Bool := decide (pat.data <:+: hay.data)

/-- Containment against a nullable column under the store's three-valued
logic: a NULL column never satisfies the condition. -/
def optContains (hay : Option String) (pat : String) : Bool :=
  match hay with
  | some h => strContains h pat
  | none => false

/-- Python truthiness of an optional string: None and the empty string are
falsy. -/
def strOptTruthy : Option String → Bool
  | none => false
  | some s => s != ""

/-- The free-text condition: title OR description OR instructions contains
the query string. -/
def rMatchesQuery (q : String) (r : Recipe) : Bool :=
  strContains r.title q || optContains r.description q || strContains r.instructions q

/-- The max-time condition (prep_time + cook_time) <= max_time as the store
evaluates it: a NULL prep or cook time makes the sum NULL and the row is
filtered out. -/
def rWithinTime (m : ℤ) (r : Recipe) : Bool :=
  match r.prep_time, r.cook_time with
  | some p, some c => decide (p + c ≤ m)
  | _, _ => false

/-- Ordering used by order_by(desc(Recipe.created_at)). -/
def byCreatedDesc (a b : Recipe) : Prop := b.created_at ≤ a.created_at

instance : DecidableRel byCreatedDesc :=
  fun a b => inferInstanceAs (Decidable (b.created_at ≤ a.created_at))

instance : IsTotal Recipe byCreatedDesc :=
  ⟨fun a b => le_total b.created_at a.created_at⟩

instance : IsTrans Recipe byCreatedDesc :=
  ⟨fun _ _ _ h1 h2 => le_trans h2 h1⟩

/-- search of routes/main.py: the query is built by conditionally chaining
one filter per supplied criterion (each guarded by Python truthiness of the
request argument) and finally ordered by creation time descending. -/
def search (q : String) (category_id : Option ℤ) (difficulty : Option String)
    (max_time : Option ℤ) (db : List Recipe) : List Recipe :=
  let recipes := db
  let recipes := if q ≠ "" then recipes.filter (rMatchesQuery q) else recipes
  let recipes :=
    if intTruthy category_id then recipes.filter (fun r => r.category_id == category_id.getD 0)
    else recipes
  let recipes :=
    if strOptTruthy difficulty then recipes.filter (fun r => r.difficulty == difficulty.getD "")
    else recipes
  let recipes :=
    if intTruthy max_time then recipes.filter (rWithinTime (max_time.getD 0))
    else recipes
  List.insertionSort byCreatedDesc recipes

/-- Stated from the claim, for comparison with the search composer: the
conjunction of the four optional filter conditions, each trivially true when
its criterion is not supplied (by the truthiness rules the composer itself
uses). -/
def searchPred (q : String) (category_id : Option ℤ) (difficulty : Option String)
    (max_time : Option ℤ) (r : Recipe) : Bool :=
  (if q ≠ "" then rMatchesQuery q r else true) &&
  (if intTruthy category_id then r.category_id == category_id.getD 0 else true) &&
  (if strOptTruthy difficulty then r.difficulty == difficulty.getD "" else true) &&
  (if intTruthy max_time then rWithinTime (max_time.getD 0) r else true)

/-! ## Rating upsert (rate of routes/recipes.py, get_average_rating of
models.py) -/

/-- Rating row (models.py): the primary key and timestamps are omitted, the
uniqueness constraint on (user_id, recipe_id) is the subject of the proofs
below. -/
structure Rating where
  user_id : ℤ
  recipe_id : ℤ
  score : ℤ
deriving Repr, DecidableEq

/-- The filter_by(user_id=..., recipe_id=...) condition. -/
def Rating.isFor (u rc : ℤ) (rt : Rating) : Bool :=
  rt.user_id == u && rt.recipe_id == rc

/-- Recipe.get_average_rating of models.py over the recipe's current rating
rows: 0 when there are none, otherwise the sum of scores divided by their
number. -/
def get_average_rating (rc : ℤ) (l : List Rating) : ℚ :=
  let rs := l.filter (fun rt => rt.recipe_id == rc)
  if rs.isEmpty then 0 else ((rs.map fun rt => (rt.score : ℚ)).sum) / (rs.length : ℚ)

/-- Assignment to existing_rating.score: the row returned by first() (the
first matching row) gets the new score, every other row is untouched. -/
def updateFirstRating (u rc k : ℤ) : List Rating → List Rating
  | [] => []
  | rt :: rest =>
    if Rating.isFor u rc rt then { rt with score := k } :: rest
    else rt :: updateFirstRating u rc k rest

/-- Outcome of the rate view: whether the request was accepted, and the
rating table afterwards (unchanged on rejection, since the view returns
before any write). -/
structure RateResult where
  ok : Bool
  ratings : List Rating
deriving Repr, DecidableEq

/-- The guard of the rate view: not score or score < 1 or score > 5, with
Python truthiness making a missing and a zero score falsy. -/
def scoreInvalid : Option ℤ → Bool
  | none => true
  | some k => k == 0 || decide (k < 1) || decide (5 < k)

/-- rate of routes/recipes.py: reject an invalid score without mutation,
otherwise update the first existing rating row for (user, recipe) in place,
or insert a single new row when none exists. -/
def rate (u rc : ℤ) (score : Option ℤ) (l : List Rating) : RateResult :=
  if scoreInvalid score then ⟨false, l⟩
  else
    let k := score.getD 0
    match l.find? (Rating.isFor u rc) with
    | some _ => ⟨true, updateFirstRating u rc k l⟩
    | none => ⟨true, l ++ [⟨u, rc, k⟩]⟩

/-- The rows of the rating table belonging to one (user, recipe) pair. -/
def pairRows (u rc : ℤ) (l : List Rating) : List Rating :=
  l.filter (Rating.isFor u rc)

/-- The uniqueness invariant of models.py: at most one rating row per
(user, recipe) pair. -/
def ratingInvariant (l : List Rating) : Prop :=
  ∀ u rc, (pairRows u rc l).length ≤ 1

/-! ## Ingredient assembly from parallel form arrays (create and edit of
routes/recipes.py) -/

/-- One assembled ingredient-input record, as built by the loops in create
and edit before persistence. -/
structure IngredientInput where
  name : String
  amount : Option ℚ
  unit : String
  notes : String
deriving Repr, DecidableEq

/-- Whitespace removed from both ends of a character list. -/
def trimChars (cs : List Char) : List Char :=
  ((cs.dropWhile Char.isWhitespace).reverse.dropWhile Char.isWhitespace).reverse

/-- Python str.strip(). -/
def pyStrip (s : String) : String := (trimChars s.data).asString

/-- Python s.replace with the dot removed, as in replace applied to a dot and
the empty string. -/
def stripDots (s : String) : String :=
  (s.data.filter fun c => c ≠ '.').asString

/-- Python str.isdigit restricted to the ASCII digits that can occur here:
nonempty and all digits. -/
def pyIsDigit (s : String) : Bool := s != "" && s.data.all Char.isDigit

/-- Split a character list at the dots, as Python split does. -/
def splitAtDots : List Char → List (List Char)
  | [] => [[]]
  | c :: cs =>
    let rest := splitAtDots cs
    if c = '.' then [] :: rest
    else
      match rest with
      | [] => [[c]]
      | g :: gs => (c :: g) :: gs

/-- Numeric value of a digit string. -/
def digitsVal (cs : List Char) : ℕ :=
  cs.foldl (fun n c => n * 10 + (c.toNat - Char.toNat '0')) 0

/-- Value of float(s) for the strings admitted by the guard in create and
edit, which consist of digits and dots: an optional integer part, one dot and
an optional fraction part. A string with two or more dots passes the guard
but makes float raise ValueError in the source; that crash is outside the
claims here and the value 0 stands in for it. -/
def parseDecimal (s : String) : ℚ :=
  match splitAtDots s.data with
  | [intPart] => (digitsVal intPart : ℚ)
  | [intPart, fracPart] =>
    (digitsVal intPart : ℚ) + (digitsVal fracPart : ℚ) / ((10 : ℚ) ^ fracPart.length)
  | _ => 0

/-- The loop body shared verbatim by create and edit of routes/recipes.py,
iterating over enumerate(ingredients_data) with index i: a row is assembled
only when the stripped name is nonempty; the read amounts_data[i] in the
amount conditional is not guarded by any bounds check, so it raises
IndexError (modelled as the error case, which aborts the request before the
commit) whenever i is out of range of the amount array; the unit and notes
reads are guarded by explicit i-below-length checks falling back to the empty
string. -/
def buildIngredientsFrom (amounts units notes : List String) :
    List String → ℕ → Except String (List IngredientInput)
  | [], _ => .ok []
  | name :: rest, i =>
    if pyStrip name ≠ "" then
      match amounts.get? i with
      | none => .error "IndexError"
      | some astr =>
        let amount := if astr != "" && pyIsDigit (stripDots astr) then some (parseDecimal astr) else none
        let u := if i < units.length then pyStrip (units.getD i "") else ""
        let nts := if i < notes.length then pyStrip (notes.getD i "") else ""
        match buildIngredientsFrom amounts units notes rest (i + 1) with
        | .ok tail => .ok ({ name := pyStrip name, amount := amount, unit := u, notes := nts } :: tail)
        | .error e => .error e
    else
      buildIngredientsFrom amounts units notes rest (i + 1)

/-- The ingredient-assembly step of both create and edit: the four parallel
getlist arrays are walked by index over the name array. -/
def buildIngredientInputs (names amounts units notes : List String) :
    Except String (List IngredientInput) :=
  buildIngredientsFrom amounts units notes names 0

instance {ε α : Type} [DecidableEq ε] [DecidableEq α] : DecidableEq (Except ε α) := fun x y =>
  match x, y with
  | .ok a, .ok b =>
    if h : a = b then isTrue (congrArg Except.ok h)
    else isFalse fun he => h (Except.ok.inj he)
  | .error a, .error b =>
    if h : a = b then isTrue (congrArg Except.error h)
    else isFalse fun he => h (Except.error.inj he)
  | .ok _, .error _ => isFalse fun he => Except.noConfusion he
  | .error _, .ok _ => isFalse fun he => Except.noConfusion he

/-! ## Sample rows for concrete evaluations -/

/-- A sample ingredient with a present, nonzero amount. -/
def ingButter : Ingredient :=
  { name := "Butter", amount := some (1 / 2), unit := some "cup", notes := some "softened" }

/-- A sample ingredient with an absent amount. -/
def ingSalt : Ingredient :=
  { name := "Salt", amount := none, unit := some "tsp", notes := some "to taste" }

/-- A sample recipe whose servings column is NULL. -/
def recipeNoServings : Recipe :=
  { id := 1, title := "Stock", description := none, instructions := "Simmer.",
    prep_time := some 10, cook_time := some 120, servings := none,
    difficulty := "Easy", category_id := 1, created_at := 100,
    ingredients := [ingButter, ingSalt] }

/-- A sample ingredient whose amount column holds 0. -/
def ingWater : Ingredient :=
  { name := "Water", amount := some 0, unit := some "l", notes := none }

/-- A sample recipe with four original servings containing a zero-amount
ingredient. -/
def recipeZeroAmount : Recipe :=
  { id := 2, title := "Soup", description := some "Plain", instructions := "Boil.",
    prep_time := some 5, cook_time := some 30, servings := some 4,
    difficulty := "Easy", category_id := 1, created_at := 200,
    ingredients := [ingWater, ingButter] }

/-- A sample recipe with four original servings and no zero amounts. -/
def recipeScale : Recipe :=
  { id := 3, title := "Cake", description := some "Sponge", instructions := "Bake.",
    prep_time := some 20, cook_time := some 40, servings := some 4,
    difficulty := "Medium", category_id := 2, created_at := 300,
    ingredients := [ingButter, ingSalt] }

/-- An ingredient whose name contains an underscore. -/
def ingAB : Ingredient :=
  { name := "a_b", amount := some 1, unit := some "c", notes := none }

/-- An ingredient whose unit contains an underscore. -/
def ingA : Ingredient :=
  { name := "a", amount := some 1, unit := some "b_c", notes := none }

/-- A recipe with one original serving (so scaling to its own serving count
multiplies every amount by 1) whose two ingredients have different names and
different units but the same joined dict key. -/
def recipeCollide : Recipe :=
  { id := 10, title := "Collision", description := none, instructions := "Mix.",
    prep_time := none, cook_time := none, servings := some 1,
    difficulty := "Easy", category_id := 1, created_at := 400,
    ingredients := [ingAB, ingA] }

/-- The scaled entries recipeCollide contributes to the shopping list. -/
def entsCollide : List Entry :=
  [{ name := "a_b", amount := some 1, unit := some "c", notes := none },
   { name := "a", amount := some 1, unit := some "b_c", notes := none }]

/-- Flour with first-seen notes. -/
def ingFlour1 : Ingredient :=
  { name := "Flour", amount := some 1, unit := some "cup", notes := some "sifted" }

/-- Flour again, case-varied name, with different notes. -/
def ingFlour2 : Ingredient :=
  { name := "flour", amount := some 2, unit := some "cup", notes := some "unsifted" }

/-- A recipe with one original serving and two mergeable flour entries
carrying different notes. -/
def recipeNotes : Recipe :=
  { id := 11, title := "Bread", description := none, instructions := "Knead.",
    prep_time := none, cook_time := none, servings := some 1,
    difficulty := "Easy", category_id := 1, created_at := 500,
    ingredients := [ingFlour1, ingFlour2] }

/-- The scaled entries recipeNotes contributes to the shopping list. -/
def entsNotes : List Entry :=
  [{ name := "Flour", amount := some 1, unit := some "cup", notes := some "sifted" },
   { name := "flour", amount := some 2, unit := some "cup", notes := some "unsifted" }]

/-! ## C5: the amount formatter -/

/-- Helper for C5: once the amount is truthy and matches none of the five
vulgar-fraction values, the formatter lands in its common tail. -/
lemma formatted_amount_eq_fmtRest (a : ℚ) (ha : a ≠ 0)
    (h2 : a ≠ 1 / 2) (h4 : a ≠ 1 / 4) (h34 : a ≠ 3 / 4)
    (h33 : a ≠ 33 / 100) (h67 : a ≠ 67 / 100) :
    formatted_amount (some a) = fmtRest a := by
  have htr : ratTruthy (some a) = true := by simp [ratTruthy, ha]
  simp only [formatted_amount, htr, Bool.true_eq_false, if_false, Option.getD_some]
  by_cases hlt : a < 1
  · rw [if_pos hlt, if_neg h2, if_neg h4, if_neg h34, if_neg h33, if_neg h67]
  · rw [if_neg hlt]

/-- C5: by exact-value matching the formatter maps 0.5, 0.25, 0.75, 0.33,
0.67 to the five vulgar-fraction strings; a present nonzero amount equal to
an integer renders as that integer's string without a decimal point (2.0
renders as "2"); every other present nonzero value renders as its literal
decimal string (2.3 renders as "2.3", and the near-miss 0.333 stays a
decimal rather than rounding to a fraction); a missing amount renders as the
empty string.  Present amounts are nonzero by the data model, which makes
them an optional positive decimal. -/
theorem formatter_fraction_integer_and_decimal_rendering :
    formatted_amount (some (1 / 2)) = "1/2" ∧
    formatted_amount (some (1 / 4)) = "1/4" ∧
    formatted_amount (some (3 / 4)) = "3/4" ∧
    formatted_amount (some (33 / 100)) = "1/3" ∧
    formatted_amount (some (67 / 100)) = "2/3" ∧
    (∀ a : ℚ, a ≠ 0 → a.den = 1 → formatted_amount (some a) = toString a.num) ∧
    (∀ a : ℚ, a ≠ 0 → a.den ≠ 1 →
      a ≠ 1 / 2 → a ≠ 1 / 4 → a ≠ 3 / 4 → a ≠ 33 / 100 → a ≠ 67 / 100 →
      formatted_amount (some a) = decimalRepr a) ∧
    formatted_amount (some 2) = "2" ∧
    formatted_amount (some (23 / 10)) = "2.3" ∧
    formatted_amount (some (333 / 1000)) = "0.333" ∧
    formatted_amount none = "" := by
  refine ⟨by decide, by decide, by decide, by decide, by decide, ?_, ?_, by decide, by decide,
    by decide, by decide⟩
  · intro a ha hden
    have h2 : a ≠ 1 / 2 := fun h => by rw [h] at hden; exact absurd hden (by decide)
    have h4 : a ≠ 1 / 4 := fun h => by rw [h] at hden; exact absurd hden (by decide)
    have h34 : a ≠ 3 / 4 := fun h => by rw [h] at hden; exact absurd hden (by decide)
    have h33 : a ≠ 33 / 100 := fun h => by rw [h] at hden; exact absurd hden (by decide)
    have h67 : a ≠ 67 / 100 := fun h => by rw [h] at hden; exact absurd hden (by decide)
    rw [formatted_amount_eq_fmtRest a ha h2 h4 h34 h33 h67, fmtRest, if_pos hden]
  · intro a ha hden h2 h4 h34 h33 h67
    rw [formatted_amount_eq_fmtRest a ha h2 h4 h34 h33 h67, fmtRest, if_neg hden]

/-- Witness for C5: the integer and decimal cases applied at 5 and 2.3. -/
theorem formatter_fraction_integer_and_decimal_rendering_witness :
    formatted_amount (some 5) = toString (5 : ℚ).num ∧
    formatted_amount (some (23 / 10)) = decimalRepr (23 / 10) :=
  ⟨formatter_fraction_integer_and_decimal_rendering.2.2.2.2.2.1 5 (by decide) (by decide),
   formatter_fraction_integer_and_decimal_rendering.2.2.2.2.2.2.1 (23 / 10) (by decide)
     (by decide) (by decide) (by decide) (by decide) (by decide) (by decide)⟩

/-! ## C6: scaling guard for zero or absent servings -/

/-- C6: when the original servings count is zero or absent,
get_scaled_ingredients performs no division and returns the recipe's
ingredients unchanged (in their observable name, amount, unit and notes
columns), for every requested serving count. -/
theorem scaling_skipped_when_servings_zero_or_absent (r : Recipe) (n : ℤ)
    (h : r.servings = none ∨ r.servings = some 0) :
    r.get_scaled_ingredients n = r.ingredients.map Ingredient.toEntry := by
  rcases h with h | h <;> simp [Recipe.get_scaled_ingredients, intTruthy, h]

/-- Witness for C6 at a recipe with a NULL servings column. -/
theorem scaling_skipped_when_servings_zero_or_absent_witness :
    recipeNoServings.get_scaled_ingredients 7 =
      recipeNoServings.ingredients.map Ingredient.toEntry :=
  scaling_skipped_when_servings_zero_or_absent recipeNoServings 7 (Or.inl rfl)

/-! ## C7: rating score validation -/

/-- C7: the rate view rejects a missing score and every score outside the
closed interval from 1 to 5 with a validation error and no state mutation;
scores 0 and 6 are rejected while 1 and 5 are accepted. -/
theorem rate_rejects_out_of_range_scores (u rc : ℤ) (l : List Rating) :
    (∀ score : Option ℤ, (score = none ∨ ∃ k, score = some k ∧ (k < 1 ∨ 5 < k)) →
      rate u rc score l = ⟨false, l⟩) ∧
    rate u rc (some 0) l = ⟨false, l⟩ ∧
    rate u rc (some 6) l = ⟨false, l⟩ ∧
    (rate u rc (some 1) l).ok = true ∧
    (rate u rc (some 5) l).ok = true := by
  have h1 : scoreInvalid (some 1) = false := by decide
  have h5 : scoreInvalid (some 5) = false := by decide
  refine ⟨?_, ?_, ?_, ?_, ?_⟩
  · rintro score (rfl | ⟨k, rfl, hk⟩)
    · rfl
    · have hinv : scoreInvalid (some k) = true := by
        rcases hk with hk | hk <;> simp [scoreInvalid, hk]
      simp [rate, hinv]
  · have : scoreInvalid (some 0) = true := by decide
    simp [rate, this]
  · have : scoreInvalid (some 6) = true := by decide
    simp [rate, this]
  · cases h : l.find? (Rating.isFor u rc) <;> simp [rate, h1, h]
  · cases h : l.find? (Rating.isFor u rc) <;> simp [rate, h5, h]

/-- Witness for C7: a score of 7 is rejected leaving the empty table
unchanged. -/
theorem rate_rejects_out_of_range_scores_witness :
    rate 1 2 (some 7) [] = ⟨false, []⟩ :=
  (rate_rejects_out_of_range_scores 1 2 []).1 (some 7) (Or.inr ⟨7, rfl, Or.inr (by decide)⟩)

/-! ## C9: parallel-array ingredient assembly -/

/-- C9 (against the code): with one nonempty ingredient name and an empty
amount array, the assembly loop shared by create and edit reads
amounts_data[0] past the bounds of the amount array and raises IndexError
instead of rejecting or skipping the misaligned entry; the same input with
the amount supplied shows the unit and notes arrays are guarded and default
to the empty string. -/
theorem ingredient_assembly_reads_past_amount_bounds :
    buildIngredientInputs ["flour"] [] [] [] = .error "IndexError" ∧
    buildIngredientInputs ["flour"] ["2"] [] [] =
      .ok [{ name := "flour", amount := some 2, unit := "", notes := "" }] := by
  constructor <;> decide

/-! ## C10: zero amounts are treated as absent -/

/-- C10: an amount equal to 0 is treated as absent at the public interface:
formatted_amount renders it as the empty string, and in the scaling branch
of get_scaled_ingredients (original servings present and nonzero, so a scale
factor exists) a zero amount maps to an absent amount instead of being
multiplied by the scale factor. -/
theorem zero_amount_treated_as_absent :
    formatted_amount (some 0) = "" ∧
    ∀ (r : Recipe) (s n : ℤ) (i : Ingredient), r.servings = some s → s ≠ 0 →
      i ∈ r.ingredients → i.amount = some 0 →
      ({ name := i.name, amount := none, unit := i.unit, notes := i.notes } : Entry) ∈
        r.get_scaled_ingredients n := by
  refine ⟨by decide, ?_⟩
  intro r s n i hs hs0 hi ha
  have htr : intTruthy r.servings = true := by simp [hs, intTruthy, hs0]
  unfold Recipe.get_scaled_ingredients
  rw [htr]
  simp only [Bool.true_eq_false, if_false]
  refine List.mem_map.mpr ⟨i, hi, ?_⟩
  simp [ha, ratTruthy]

/-- Witness for C10: the zero-amount ingredient of the sample recipe scaled
from 4 to 8 servings comes out with an absent amount. -/
theorem zero_amount_treated_as_absent_witness :
    ({ name := "Water", amount := none, unit := some "l", notes := none } : Entry) ∈
      recipeZeroAmount.get_scaled_ingredients 8 :=
  zero_amount_treated_as_absent.2 recipeZeroAmount 4 8 ingWater rfl (by decide)
    (by decide) rfl

/-! ## C1: the scaling arithmetic -/

/-- C1: for a recipe with positive original servings S, no zero amounts (the
data model makes present amounts positive; amount 0 is handled as absent, see
the zero-amount theorem) and positive requested servings N,
get_scaled_ingredients returns the ingredients in their original order with
each present amount A replaced by A * N / S and name, unit hold notes
unchanged, an absent amount staying absent; scaling with N = S leaves every
amount at its original value. -/
theorem scaling_multiplies_amounts_by_ratio (r : Recipe) (S N : ℤ)
    (hS : r.servings = some S) (hSpos : 0 < S) (_hNpos : 0 < N)
    (hamounts : ∀ i ∈ r.ingredients, i.amount ≠ some 0) :
    r.get_scaled_ingredients N =
      r.ingredients.map (fun i =>
        { name := i.name, amount := i.amount.map fun a => a * (N : ℚ) / (S : ℚ),
          unit := i.unit, notes := i.notes }) ∧
    (N = S → r.get_scaled_ingredients N = r.ingredients.map Ingredient.toEntry) := by
  have hS0 : S ≠ 0 := by omega
  have hcast : (S : ℚ) ≠ 0 := Int.cast_ne_zero.mpr hS0
  have htr : intTruthy r.servings = true := by simp [intTruthy, hS, hS0]
  have hmain : r.get_scaled_ingredients N =
      r.ingredients.map (fun i =>
        { name := i.name, amount := i.amount.map fun a => a * (N : ℚ) / (S : ℚ),
          unit := i.unit, notes := i.notes }) := by
    unfold Recipe.get_scaled_ingredients
    rw [htr]
    simp only [Bool.true_eq_false, if_false, hS, Option.getD_some]
    refine List.map_congr_left fun i hi => ?_
    cases ha : i.amount with
    | none => simp [ratTruthy, ha]
    | some a =>
      have ha0 : a ≠ 0 := fun h => hamounts i hi (by rw [ha, h])
      simp [ratTruthy, ha, ha0, mul_div_assoc]
  refine ⟨hmain, fun hNS => ?_⟩
  subst hNS
  rw [hmain]
  refine List.map_congr_left fun i _ => ?_
  cases ha : i.amount with
  | none => simp [Ingredient.toEntry, ha]
  | some a => simp [Ingredient.toEntry, ha, mul_div_assoc, div_self hcast]

/-- Witness for C1: the sample recipe scaled from 4 to 8 servings and the
identity scaling at 4 servings. -/
theorem scaling_multiplies_amounts_by_ratio_witness :
    recipeScale.get_scaled_ingredients 8 =
      recipeScale.ingredients.map (fun i =>
        { name := i.name, amount := i.amount.map fun a => a * ((8 : ℤ) : ℚ) / ((4 : ℤ) : ℚ),
          unit := i.unit, notes := i.notes }) ∧
    ((8 : ℤ) = 4 → recipeScale.get_scaled_ingredients 8 =
      recipeScale.ingredients.map Ingredient.toEntry) :=
  scaling_multiplies_amounts_by_ratio recipeScale 4 8 rfl (by decide) (by decide) (by decide)

/-! ## C8: search filter composition -/

/-- C8: a recipe appears in the search result iff it satisfies every supplied
filter (the result is exactly the conjunctive filtering of the table, ordered
by creation time descending); with zero filters the result is all recipes
ordered by creation time descending; and a filter combination matching no
recipe yields an empty listing rather than an error. -/
theorem search_filters_combine_conjunctively (q : String) (c : Option ℤ)
    (d : Option String) (m : Option ℤ) (db : List Recipe) :
    search q c d m db = List.insertionSort byCreatedDesc (db.filter (searchPred q c d m)) ∧
    List.Perm (search "" none none none db) db ∧
    List.Sorted byCreatedDesc (search "" none none none db) ∧
    ((∀ r ∈ db, searchPred q c d m r = false) → search q c d m db = []) := by
  have hmain : search q c d m db =
      List.insertionSort byCreatedDesc (db.filter (searchPred q c d m)) := by
    unfold search searchPred
    by_cases hq : q ≠ "" <;> by_cases hc : intTruthy c = true <;>
      by_cases hd : strOptTruthy d = true <;> by_cases hm : intTruthy m = true <;>
      simp [hq, hc, hd, hm, List.filter_filter, Bool.and_comm, Bool.and_assoc,
        Bool.and_left_comm]
  have hzero : search "" none none none db = List.insertionSort byCreatedDesc db := by
    simp [search, intTruthy, strOptTruthy]
  refine ⟨hmain, ?_, ?_, fun h => ?_⟩
  · rw [hzero]; exact List.perm_insertionSort byCreatedDesc db
  · rw [hzero]; exact List.sorted_insertionSort byCreatedDesc db
  · rw [hmain]
    have hnil : db.filter (searchPred q c d m) = [] := by
      refine List.filter_eq_nil_iff.mpr fun a ha => ?_
      simp [h a ha]
    rw [hnil]
    rfl

/-- Witness for C8: a difficulty filter matching no recipe yields the empty
listing on a one-recipe table. -/
theorem search_filters_combine_conjunctively_witness :
    search "" none (some "Hard") none [recipeScale] = [] :=
  (search_filters_combine_conjunctively "" none (some "Hard") none [recipeScale]).2.2.2
    (by decide)

/-! ## Merging lemmas for the shopping list -/

/-- Looking a key up after the in-place dict update touches the value exactly
when the keys agree. -/
lemma alookup_map_update (m : List (String × OutEntry)) (key k : String)
    (f : OutEntry → OutEntry) :
    alookup k (m.map fun kv => if kv.1 = key then (kv.1, f kv.2) else kv) =
      if k = key then (alookup k m).map f else alookup k m := by
  induction m with
  | nil => by_cases h : k = key <;> simp [alookup, h]
  | cons kv rest ih =>
    simp only [List.map_cons]
    by_cases h2 : kv.1 = k
    · subst h2
      by_cases h1 : kv.1 = key
      · subst h1
        simp [alookup]
      · simp [alookup, h1]
    · by_cases h1 : kv.1 = key
      · subst h1
        have hk : ¬k = kv.1 := fun h => h2 h.symm
        simp [alookup, h2, hk, ih]
      · simp [alookup, h1, h2, ih]

/-- Lookup distributes over dict append: the left part wins when it holds the
key. -/
lemma alookup_append (m₁ m₂ : List (String × OutEntry)) (k : String) :
    alookup k (m₁ ++ m₂) = (alookup k m₁).or (alookup k m₂) := by
  induction m₁ with
  | nil => simp [alookup]
  | cons kv rest ih =>
    by_cases h : kv.1 = k <;> simp [alookup, h, ih]

/-- One inner-loop iteration changes the dict at exactly the entry's key:
adding onto the stored amount when present, inserting the fresh value when
absent. -/
lemma alookup_addEntry (m : List (String × OutEntry)) (e : Entry) (k : String) :
    alookup k (addEntry m e) =
      if entryKey e = k then
        match alookup k m with
        | some o => some { o with amount := o.amount + entryAmount e }
        | none => some { name := e.name, amount := entryAmount e,
                         unit := e.unit.getD "", notes := e.notes }
      else alookup k m := by
  unfold addEntry
  cases hm : alookup (entryKey e) m with
  | some o =>
    simp only [hm, Option.isSome_some, if_true]
    rw [alookup_map_update m (entryKey e) k fun o => { o with amount := o.amount + entryAmount e }]
    by_cases hk : entryKey e = k
    · subst hk
      simp [hm]
    · have hk2 : ¬k = entryKey e := fun h => hk h.symm
      simp [hk, hk2]
  | none =>
    simp only [hm, Option.isSome_none, Bool.false_eq_true, if_false]
    rw [alookup_append]
    by_cases hk : entryKey e = k
    · subst hk
      simp [hm, alookup]
    · cases h : alookup k m <;> simp [alookup, hk, h]

/-- Folding the inner loop over a list of entries: an existing dict value
gains the total amount of its key, and a fresh key gets the combined value of
the entries carrying it. -/
lemma alookup_foldl_addEntry (es : List Entry) (m : List (String × OutEntry))
    (k : String) :
    alookup k (es.foldl addEntry m) =
      match alookup k m with
      | some o => some { o with amount := o.amount + keyAmountSum k es }
      | none => combinedAt k es := by
  induction es generalizing m with
  | nil =>
    cases h : alookup k m with
    | some o => simp [h, keyAmountSum, combinedAt]
    | none => simp [h, combinedAt]
  | cons e rest ih =>
    rw [List.foldl_cons, ih, alookup_addEntry]
    by_cases hk : entryKey e = k
    · rw [if_pos hk]
      cases h : alookup k m with
      | some o => simp [h, keyAmountSum, List.filter_cons, hk, add_assoc]
      | none => simp [h, combinedAt, hk, keyAmountSum, List.filter_cons]
    · rw [if_neg hk]
      cases h : alookup k m with
      | some o => simp [h, keyAmountSum, List.filter_cons, hk]
      | none => simp [h, combinedAt, hk]

/-- The combined dict at any key is the specification view of the merged
entries at that key. -/
lemma alookup_combineEntries (es : List Entry) (k : String) :
    alookup k (combineEntries es) = combinedAt k es := by
  unfold combineEntries
  rw [alookup_foldl_addEntry]
  simp [alookup]

/-- The specification view in terms of first match and total amount. -/
lemma combinedAt_eq_find (k : String) (es : List Entry) :
    combinedAt k es =
      (es.find? fun e => entryKey e = k).map fun e =>
        { name := e.name, amount := keyAmountSum k es, unit := e.unit.getD "",
          notes := e.notes } := by
  induction es with
  | nil => rfl
  | cons e rest ih =>
    by_cases hk : entryKey e = k
    · simp [combinedAt, hk, keyAmountSum, List.filter_cons]
    · simp [combinedAt, hk, ih, keyAmountSum, List.filter_cons]

/-! ## C3: the shopping-list merge rule -/

/-- C3 as stated is false: the two ingredients of recipeCollide (one original
serving, so the dict path runs with scale factor 1) have different lowercased
names and different units, yet the aggregator merges them into a single
output entry, because the dict key is the single string joining name and unit
with an underscore and the boundary shifts. -/
theorem shopping_list_name_unit_key_collision :
    strLower "a_b" ≠ strLower "a" ∧
    shoppingList [recipeCollide] [10] [] =
      .ok [("a_b_c", { name := "a_b", amount := 2, unit := "c", notes := none })] := by
  constructor <;> decide

/-- C3 (amended): on an aggregation that completes (every processed recipe
reaches the dict path, so the gathered entry list exists), two entries merge
iff their joined key strings (lowercased name, an underscore, then the unit
with an absent unit replaced by the empty string) are equal — the dict at any
key holds the first matching entry's name, unit and notes with the amount
summed (absent amounts counted as zero) over exactly the entries carrying
that key, and is empty at keys carried by no entry; and a recipe id that
matches no recipe row contributes nothing at its position in the id list. -/
theorem shopping_list_merges_by_joined_key (db : List Recipe) (ids servs : List ℤ)
    (k : String) :
    (∀ es : List Entry, gatherEntries db ids servs 0 = .ok es →
      shoppingList db ids servs = .ok (combineEntries es) ∧
      alookup k (combineEntries es) =
        (es.find? fun e => entryKey e = k).map (fun e =>
          { name := e.name, amount := keyAmountSum k es, unit := e.unit.getD "",
            notes := e.notes })) ∧
    ∀ (rid : ℤ) (rest : List ℤ) (i : ℕ), (db.find? fun r => r.id == rid) = none →
      gatherEntries db (rid :: rest) servs i = gatherEntries db rest servs (i + 1) := by
  refine ⟨fun es h => ⟨?_, ?_⟩, ?_⟩
  · unfold shoppingList
    rw [h]
  · rw [alookup_combineEntries, combinedAt_eq_find]
  · intro rid rest i h
    simp [gatherEntries, h]

/-- Witness for C3: the collision recipe's aggregation completes and is
characterised at its colliding key, and an id that matches no recipe
contributes nothing. -/
theorem shopping_list_merges_by_joined_key_witness :
    (shoppingList [recipeCollide] [10] [] = .ok (combineEntries entsCollide) ∧
      alookup "a_b_c" (combineEntries entsCollide) =
        (entsCollide.find? fun e => entryKey e = "a_b_c").map (fun e =>
          { name := e.name, amount := keyAmountSum "a_b_c" entsCollide,
            unit := e.unit.getD "", notes := e.notes })) ∧
    gatherEntries [recipeCollide] [99, 10] [] 0 = gatherEntries [recipeCollide] [10] [] 1 :=
  ⟨(shopping_list_merges_by_joined_key [recipeCollide] [10] [] "a_b_c").1 entsCollide
      (by decide),
   (shopping_list_merges_by_joined_key [recipeCollide] [] [] "").2 99 [10] 0 (by decide)⟩

/-! ## C4: merged notes -/

/-- C4 as stated is false: merging the two flour entries of recipeNotes (one
original serving, so the dict path runs with scale factor 1) keeps the
first-seen notes, not the notes of the last entry processed for the key. -/
theorem shopping_list_notes_not_last_seen :
    shoppingList [recipeNotes] [11] [] =
      .ok [("flour_cup",
        { name := "Flour", amount := 3, unit := "cup", notes := some "sifted" })] ∧
    (some "sifted" : Option String) ≠ some "unsifted" := by
  constructor <;> decide

/-- C4 (amended): on an aggregation that completes, when entries merge the
notes of the merged output entry are the notes of the first entry processed
for that key (first-seen wins; notes are not concatenated). -/
theorem shopping_list_notes_first_seen (db : List Recipe) (ids servs : List ℤ)
    (k : String) :
    ∀ (es : List Entry) (m : List (String × OutEntry)),
      gatherEntries db ids servs 0 = .ok es → shoppingList db ids servs = .ok m →
      (alookup k m).map (fun o => o.notes) =
        (es.find? fun e => entryKey e = k).map fun e => e.notes := by
  intro es m hg hs
  have hm : m = combineEntries es := by
    unfold shoppingList at hs
    rw [hg] at hs
    exact (Except.ok.inj hs).symm
  subst hm
  rw [alookup_combineEntries, combinedAt_eq_find, Option.map_map]
  rfl

/-- Witness for C4: the flour recipe's completed aggregation keeps the
first-seen notes at its key. -/
theorem shopping_list_notes_first_seen_witness :
    (alookup "flour_cup" (combineEntries entsNotes)).map (fun o => o.notes) =
      (entsNotes.find? fun e => entryKey e = "flour_cup").map fun e => e.notes :=
  shopping_list_notes_first_seen [recipeNotes] [11] [] "flour_cup" entsNotes
    (combineEntries entsNotes) (by decide) (by decide)

/-- The error path the aggregator takes at a falsy-servings recipe with
ingredients: the guard branch hands the merge loop ORM rows and the first
subscript raises TypeError instead of merging. -/
example : shoppingList [recipeNoServings] [1] [] = .error "TypeError" := by decide

/-! ## Rating lemmas -/

/-- first() on the filtered rating query is the head of the pair's rows. -/
lemma find?_eq_head?_pairRows (u rc : ℤ) (l : List Rating) :
    l.find? (Rating.isFor u rc) = (pairRows u rc l).head? := by
  induction l with
  | nil => rfl
  | cons rt rest ih =>
    simp only [pairRows] at ih ⊢
    by_cases h : Rating.isFor u rc rt = true
    · rw [List.find?_cons_of_pos _ h, List.filter_cons_of_pos h]
      rfl
    · rw [List.find?_cons_of_neg _ h, List.filter_cons_of_neg h]
      exact ih

/-- Updating the first matching row's score keeps the table size. -/
lemma length_updateFirstRating (u rc k : ℤ) (l : List Rating) :
    (updateFirstRating u rc k l).length = l.length := by
  induction l with
  | nil => rfl
  | cons rt tail ih =>
    by_cases h : Rating.isFor u rc rt = true <;> simp [updateFirstRating, h, ih]

/-- Updating the first matching row rewrites the head of the pair's rows and
leaves the rest alone. -/
lemma pairRows_updateFirstRating (u rc k : ℤ) (l : List Rating) :
    pairRows u rc (updateFirstRating u rc k l) =
      match pairRows u rc l with
      | [] => []
      | rt :: rest => { rt with score := k } :: rest := by
  induction l with
  | nil => rfl
  | cons rt tail ih =>
    simp only [pairRows] at ih
    by_cases h : Rating.isFor u rc rt = true
    · have h2 : Rating.isFor u rc { rt with score := k } = true := h
      simp [updateFirstRating, pairRows, List.filter_cons, h, h2]
    · simp [updateFirstRating, pairRows, List.filter_cons, h, ih]

/-- A score update never changes how many rows any (user, recipe) pair
owns. -/
lemma length_pairRows_updateFirstRating (u rc k u' rc' : ℤ) (l : List Rating) :
    (pairRows u' rc' (updateFirstRating u rc k l)).length =
      (pairRows u' rc' l).length := by
  induction l with
  | nil => rfl
  | cons rt tail ih =>
    simp only [pairRows] at ih
    by_cases h : Rating.isFor u rc rt = true
    · have h2 : Rating.isFor u' rc' { rt with score := k } = Rating.isFor u' rc' rt := rfl
      by_cases h3 : Rating.isFor u' rc' rt = true <;>
        simp [updateFirstRating, pairRows, List.filter_cons, h, h2, h3]
    · by_cases h3 : Rating.isFor u' rc' rt = true <;>
        simp [updateFirstRating, pairRows, List.filter_cons, h, h3, ih]

/-- When no row of the prefix matches, the score update walks past it. -/
lemma updateFirstRating_append_of_no_match (u rc k : ℤ) (l l' : List Rating)
    (h : ∀ rt ∈ l, ¬Rating.isFor u rc rt = true) :
    updateFirstRating u rc k (l ++ l') = l ++ updateFirstRating u rc k l' := by
  induction l with
  | nil => rfl
  | cons rt tail ih =>
    have h1 := h rt (List.mem_cons_self rt tail)
    simp only [List.cons_append, updateFirstRating, if_neg h1, List.cons.injEq, true_and]
    exact ih fun rt' hrt' => h rt' (List.mem_cons_of_mem rt hrt')

/-- The freshly inserted row matches its own pair. -/
lemma isFor_self (u rc k : ℤ) : Rating.isFor u rc ⟨u, rc, k⟩ = true := by
  simp [Rating.isFor]

/-! ## C2: the rating upsert invariant -/

/-- C2: the rate operation keeps at most one rating row per (user, recipe)
pair for every score; rating with 3 and then with 5 leaves the pair with
exactly one row whose score is 5, updating in place when a row already
existed and inserting exactly one row otherwise (the table length shows
which); and get_average_rating is the arithmetic mean of the current rows (0
when there are none), so on a recipe nobody else rated the two rates produce
average 5, only the latest value. -/
theorem rating_upsert_unique_and_latest (l : List Rating) (u rc : ℤ)
    (hinv : ratingInvariant l) :
    (∀ score : Option ℤ, ratingInvariant ((rate u rc score l).ratings)) ∧
    (rate u rc (some 3) l).ok = true ∧
    (rate u rc (some 5) ((rate u rc (some 3) l).ratings)).ok = true ∧
    (pairRows u rc ((rate u rc (some 5) ((rate u rc (some 3) l).ratings)).ratings)).map
        (fun rt => rt.score) = [5] ∧
    ((rate u rc (some 5) ((rate u rc (some 3) l).ratings)).ratings).length =
      (if (pairRows u rc l).length = 0 then l.length + 1 else l.length) ∧
    (∀ l' : List Rating, (l'.filter fun rt => rt.recipe_id == rc) = [] →
      get_average_rating rc l' = 0) ∧
    ((l.filter fun rt => rt.recipe_id == rc) = [] →
      get_average_rating rc
        ((rate u rc (some 5) ((rate u rc (some 3) l).ratings)).ratings) = 5) := by
  have hv3 : scoreInvalid (some 3) = false := by decide
  have hv5 : scoreInvalid (some 5) = false := by decide
  have havg0 : ∀ l' : List Rating, (l'.filter fun rt => rt.recipe_id == rc) = [] →
      get_average_rating rc l' = 0 := by
    intro l' h
    simp [get_average_rating, h]
  have hpres : ∀ score : Option ℤ, ratingInvariant ((rate u rc score l).ratings) := by
    intro score
    by_cases hival : scoreInvalid score = true
    · simpa [rate, hival] using hinv
    · have hival' : scoreInvalid score = false := by simpa using hival
      cases hfind : l.find? (Rating.isFor u rc) with
      | some rt0 =>
        simp only [rate, hival', Bool.false_eq_true, if_false, hfind]
        intro u' rc'
        rw [length_pairRows_updateFirstRating]
        exact hinv u' rc'
      | none =>
        simp only [rate, hival', Bool.false_eq_true, if_false, hfind]
        intro u' rc'
        have hlen : (pairRows u' rc' (l ++ [⟨u, rc, score.getD 0⟩])).length =
            (pairRows u' rc' l).length +
              (pairRows u' rc' [⟨u, rc, score.getD 0⟩]).length := by
          simp [pairRows, List.filter_append]
        rw [hlen]
        by_cases hx : Rating.isFor u' rc' ⟨u, rc, score.getD 0⟩ = true
        · obtain ⟨hu, hrc2⟩ : u = u' ∧ rc = rc' := by
            simpa [Rating.isFor] using hx
          subst hu
          subst hrc2
          have h0 : pairRows u rc l = [] := by
            have h := find?_eq_head?_pairRows u rc l
            rw [hfind] at h
            exact List.head?_eq_none_iff.mp h.symm
          rw [h0]
          simp [pairRows, List.filter_cons, hx]
        · simp only [pairRows, List.filter_cons, hx, Bool.false_eq_true, if_false,
            List.filter_nil, List.length_nil, Nat.add_zero]
          exact hinv u' rc'
  refine ⟨hpres, ?_⟩
  cases hfind : l.find? (Rating.isFor u rc) with
  | none =>
    have hpair0 : pairRows u rc l = [] := by
      have h := find?_eq_head?_pairRows u rc l
      rw [hfind] at h
      exact List.head?_eq_none_iff.mp h.symm
    have hpair0' : List.filter (Rating.isFor u rc) l = [] := by
      simpa [pairRows] using hpair0
    have hnomatch : ∀ rt ∈ l, ¬Rating.isFor u rc rt = true :=
      List.filter_eq_nil_iff.mp hpair0'
    have hr3 : rate u rc (some 3) l = ⟨true, l ++ [⟨u, rc, 3⟩]⟩ := by
      simp [rate, hv3, hfind]
    have hfind1 : (l ++ [(⟨u, rc, 3⟩ : Rating)]).find? (Rating.isFor u rc) =
        some (⟨u, rc, 3⟩ : Rating) := by
      rw [find?_eq_head?_pairRows]
      simp [pairRows, List.filter_append, hpair0', List.filter_cons, isFor_self]
    have hr5 : rate u rc (some 5) (l ++ [(⟨u, rc, 3⟩ : Rating)]) =
        ⟨true, l ++ [(⟨u, rc, 5⟩ : Rating)]⟩ := by
      simp only [rate, hv5, Bool.false_eq_true, if_false, hfind1, Option.getD_some]
      rw [updateFirstRating_append_of_no_match u rc 5 l _ hnomatch]
      simp [updateFirstRating, isFor_self]
    rw [hr3]
    simp only [hr5]
    refine ⟨by trivial, by trivial, ?_, ?_, havg0, ?_⟩
    · simp [pairRows, List.filter_append, hpair0', List.filter_cons, isFor_self]
    · simp [hpair0]
    · intro hrc
      have hx5 : ((⟨u, rc, 5⟩ : Rating).recipe_id == rc) = true := by simp
      simp [get_average_rating, List.filter_append, hrc, hx5]
  | some rt0 =>
    have hhead := find?_eq_head?_pairRows u rc l
    rw [hfind] at hhead
    have hpair : pairRows u rc l = [rt0] := by
      cases hp : pairRows u rc l with
      | nil => rw [hp] at hhead; simp at hhead
      | cons a t =>
        rw [hp] at hhead
        have ha : a = rt0 := by simpa using hhead.symm
        have hlen := hinv u rc
        rw [hp] at hlen
        simp only [List.length_cons] at hlen
        have ht : t = [] := List.eq_nil_of_length_eq_zero (by omega)
        rw [ht, ha]
    have hr3 : rate u rc (some 3) l = ⟨true, updateFirstRating u rc 3 l⟩ := by
      simp [rate, hv3, hfind]
    have hpair1 : pairRows u rc (updateFirstRating u rc 3 l) =
        [{ rt0 with score := 3 }] := by
      rw [pairRows_updateFirstRating, hpair]
    have hfind1 : (updateFirstRating u rc 3 l).find? (Rating.isFor u rc) =
        some { rt0 with score := 3 } := by
      rw [find?_eq_head?_pairRows, hpair1]
      rfl
    have hr5 : rate u rc (some 5) (updateFirstRating u rc 3 l) =
        ⟨true, updateFirstRating u rc 5 (updateFirstRating u rc 3 l)⟩ := by
      simp [rate, hv5, hfind1]
    have hpair2 : pairRows u rc (updateFirstRating u rc 5 (updateFirstRating u rc 3 l)) =
        [{ rt0 with score := 5 }] := by
      rw [pairRows_updateFirstRating, hpair1]
    rw [hr3]
    simp only [hr5]
    refine ⟨by trivial, by trivial, ?_, ?_, havg0, ?_⟩
    · simp [hpair2]
    · have h1 : (pairRows u rc l).length = 1 := by rw [hpair]; rfl
      simp [length_updateFirstRating, h1]
    · intro hrc
      have hmem : rt0 ∈ List.filter (Rating.isFor u rc) l := by
        have : rt0 ∈ pairRows u rc l := by rw [hpair]; exact List.mem_cons_self rt0 []
        simpa [pairRows] using this
      obtain ⟨hmem_l, hfor⟩ := List.mem_filter.mp hmem
      obtain ⟨-, hrc_eq⟩ : rt0.user_id = u ∧ rt0.recipe_id = rc := by
        simpa [Rating.isFor] using hfor
      have hnone := List.filter_eq_nil_iff.mp hrc rt0 hmem_l
      exact absurd (by simp [hrc_eq]) hnone

/-- Witness for C2: on a table holding one rating by another user on another
recipe, rating recipe 2 as user 1 with 3 and then 5 leaves one pair row with
score 5 and average 5. -/
theorem rating_upsert_unique_and_latest_witness :
    (pairRows 1 2 ((rate 1 2 (some 5) ((rate 1 2 (some 3) [⟨9, 7, 4⟩]).ratings)).ratings)).map
        (fun rt => rt.score) = [5] ∧
    get_average_rating 2
      ((rate 1 2 (some 5) ((rate 1 2 (some 3) [⟨9, 7, 4⟩]).ratings)).ratings) = 5 := by
  have h := rating_upsert_unique_and_latest [⟨9, 7, 4⟩] 1 2
    (fun u rc => le_trans (List.length_filter_le _ _) (by decide))
  exact ⟨h.2.2.2.1, h.2.2.2.2.2.2 (by decide)⟩

end RecipeApp
